import Mathlib

set_option autoImplicit false

/-!
Verification of the excel-chart-weaver report engine.

The definitions below are a shallow embedding of the TypeScript source:

* `src/types/excel.ts` — the cell / worksheet data model;
* `src/unnamed/part_002` (`MonthlyReport`) — monthly aggregation;
* `src/unnamed/part_004` (`ProjectReport`) — per-project aggregation with the
  optional month detail view;
* `src/components/PurchaseOrdersReport.tsx` — per-purchase-order aggregation
  and the purchase-order column classification;
* `src/pages/Index.tsx` — the loaded-dataset state and worksheet lookups;
* `src/components/FileUploader.tsx` — the upload batch handling.

JavaScript numbers are modelled as `Int` (the reports only add and compare
cell values), JavaScript `Date` instants as calendar fields plus a
time-of-day ordinal, and `Map<string, number>` as an insertion-ordered
association list. The exact integer accumulation (`mapAdd`) idealizes the
program's IEEE-754 binary64 summation; where the distinction matters — the
row-reordering behavior of bucket totals — the accumulation is modelled a
second time with correctly rounded binary64 addition (`fpAdd` and the
`fp...` accumulators), which is faithful on the integer-valued doubles the
`Int` cell model populates.
-/

namespace ECW

/-- Models a JavaScript `Date` instant by its calendar fields: `year`,
1-based `month` (the source's `getMonth()` is this minus 1), `day`, and a
time-of-day ordinal `t` (0 = midnight, larger = later in the day; bounded
below `dayUnit` for faithful instant comparison). -/
structure DateTime where
  year : Nat
  month : Nat
  day : Nat
  t : Nat
  deriving DecidableEq

/-- Bound on the time-of-day ordinal of a `DateTime`. -/
def dayUnit : Nat := 100000

/-- Models `Date.prototype.getTime`: a number that orders instants
chronologically (for calendar-valid fields and `t < dayUnit`). -/
def DateTime.stamp (d : DateTime) : Nat :=
  ((d.year * 13 + d.month) * 32 + d.day) * dayUnit + d.t

/-- The cell value union of `src/types/excel.ts`
(`string | number | boolean | Date | null`); `null` also stands for a
missing cell (`undefined`), which every consumption site treats alike.
`num` carries an `Int`: an integer-valued double. Exact integer addition
on these idealizes binary64 summation; the `fpAdd`-based definitions
below model the rounding the program actually performs where that
difference is the point. -/
inductive CellVal where
  | str (s : String)
  | num (n : Int)
  | boolean (b : Bool)
  | date (d : DateTime)
  | null
  deriving DecidableEq

/-- One data row: `Record<string, CellValue>`, the `.value` projection
already applied (no report reads `.formatted`). -/
def Row : Type := List (String × CellVal)

instance : DecidableEq Row := by
  unfold Row
  infer_instance

/-- Models `row[header]?.value`: first entry for the column name, `null`
when the column is absent. -/
def rowVal : Row → String → CellVal
  | [], _ => .null
  | (k, v) :: rest, h => if k = h then v else rowVal rest h

/-- The `WorksheetData` record of `src/types/excel.ts` (the raw grid and
`source` tag are unused by the report logic). -/
structure Worksheet where
  name : String
  fileName : String
  headers : List String
  data : List Row
  deriving DecidableEq

/-- Models JavaScript truthiness of a cell value, as used by the
`if (!value) return` guards. -/
def truthy : CellVal → Bool
  | .str s => !(s = "")
  | .num n => !(n = 0)
  | .boolean b => b
  | .date _ => true
  | .null => false

/-- Digit value of a character, `none` for non-digits. -/
def digitVal? (c : Char) : Option Nat :=
  if c.isDigit then some (c.toNat - 48) else none

/-- Accumulating decimal parse over characters; fails on any non-digit. -/
def parseNatAux : Nat → List Char → Option Nat
  | acc, [] => some acc
  | acc, c :: cs =>
    match digitVal? c with
    | some d => parseNatAux (acc * 10 + d) cs
    | none => none

/-- Decimal parse of a nonempty all-digit character list. -/
def parseNatChars : List Char → Option Nat
  | [] => none
  | cs => parseNatAux 0 cs

/-- Splits a character list on a separator character, like
`String.prototype.split` with a single-character separator. -/
def splitOnCharAux (sep : Char) : List Char → List Char → List (List Char)
  | cur, [] => [cur.reverse]
  | cur, c :: cs =>
    if c = sep then cur.reverse :: splitOnCharAux sep [] cs
    else splitOnCharAux sep (c :: cur) cs

/-- Models `s.split(sep)` for a one-character separator. -/
def splitOnChar (sep : Char) (cs : List Char) : List (List Char) :=
  splitOnCharAux sep [] cs

/-- Gregorian leap-year rule, as implemented by the JavaScript `Date`
calendar. -/
def isLeapYear (y : Nat) : Bool :=
  (y % 4 = 0 && !(y % 100 = 0)) || y % 400 = 0

/-- Number of days in a calendar month (1-based), as computed by
`new Date(year, month, 0).getDate()`. -/
def daysInMonth (y m : Nat) : Nat :=
  if m = 2 then (if isLeapYear y then 29 else 28)
  else if m = 4 || m = 6 || m = 9 || m = 11 then 30
  else 31

/-- Models the JavaScript `new Date(string)` / `Date.parse` used by every
report, for ISO `YYYY-MM-DD` date strings — the only shape the reports
rely on: a calendar-valid date yields that date at midnight, anything
malformed yields `none` (the caller then skips the row, mirroring the
`isNaN(date.getTime())` check). Timezone effects are not modelled. -/
def dateParse (s : String) : Option DateTime :=
  match splitOnChar '-' s.data with
  | [ys, ms, ds] =>
    match parseNatChars ys, parseNatChars ms, parseNatChars ds with
    | some y, some m, some d =>
      if 1 ≤ m && m ≤ 12 && 1 ≤ d && d ≤ daysInMonth y m then
        some ⟨y, m, d, 0⟩
      else none
    | _, _, _ => none
  | _ => none

/-- The date-cell dispatch shared by all three reports:
`if (!dateValue) return`, then a string goes through date parsing (skip on
failure), a `Date` instance is used as-is, and any other type is skipped. -/
def resolveDate (c : CellVal) : Option DateTime :=
  if truthy c then
    match c with
    | .str s => dateParse s
    | .date d => some d
    | _ => none
  else none

/-- Models `String(value)` on a cell value. A `Date` stringifies to a
locale-dependent text no report depends on; it is modelled by a fixed
placeholder. -/
def cellToString : CellVal → String
  | .str s => s
  | .num n => n.repr
  | .boolean b => if b then "true" else "false"
  | .date _ => "[Date]"
  | .null => "null"

/-- Models `String(n).padStart(2, '0')` for a natural number. -/
def pad2 (n : Nat) : String :=
  if n < 10 then "0" ++ Nat.repr n else Nat.repr n

/-- The bucket key `` `${date.getFullYear()}-${String(date.getMonth() + 1).padStart(2, '0')}` ``. -/
def monthKeyStr (d : DateTime) : String :=
  Nat.repr d.year ++ "-" ++ pad2 d.month

/-- The display label `` `${String(date.getMonth() + 1).padStart(2, '0')}/${date.getFullYear()}` ``. -/
def monthLabelStr (d : DateTime) : String :=
  pad2 d.month ++ "/" ++ Nat.repr d.year

/-- Lookup in the insertion-ordered association-list model of
`Map<string, number>`. -/
def mapGet : List (String × Int) → String → Option Int
  | [], _ => none
  | (k, v) :: rest, key => if k = key then some v else mapGet rest key

/-- Models the accumulation pattern
`map.has(k) ? map.set(k, map.get(k)! + v) : map.set(k, v)`: the entry is
updated in place when the key exists, otherwise appended (JavaScript `Map`
preserves insertion order). -/
def mapAdd : List (String × Int) → String → Int → List (String × Int)
  | [], key, v => [(key, v)]
  | (k, w) :: rest, key, v =>
    if k = key then (k, w + v) :: rest
    else (k, w) :: mapAdd rest key v

/-- Accumulates a list of keyed contributions into the map, in row order. -/
def buildMap (l : List (String × Int)) : List (String × Int) :=
  l.foldl (fun m p => mapAdd m p.1 p.2) []

/-- Whether some contribution carries the given key. -/
def hasKey (l : List (String × Int)) (k : String) : Bool :=
  l.any (fun p => p.1 = k)

/-- Sum of the contributions carrying the given key. -/
def sumKey (l : List (String × Int)) (k : String) : Int :=
  ((l.filter (fun p => p.1 = k)).map Prod.snd).sum

/-- Sum of the magnitudes of a contribution list's values; bucket totals
whose contributions stay below `2 ^ 53` in this measure are computed
exactly by binary64 addition. -/
def absSum (l : List (String × Int)) : Nat :=
  (l.map (fun p => p.2.natAbs)).sum

/-! ### Binary64 arithmetic

`mapAdd` above idealizes the accumulation with exact integer addition.
The program, however, sums JavaScript numbers — IEEE-754 binary64
doubles — and binary64 addition is the *correctly rounded* exact sum
(round-to-nearest, ties-to-even). The definitions below model that
addition restricted to integer-valued doubles, which is all the `Int`
cell model can populate: the exact integer sum, rounded to 53
significant bits. This is faithful binary64 addition for magnitudes
below the overflow threshold (≈ `2 ^ 1024`), far above anything a
report sees. -/

/-- Bit length of a natural number (the fuel argument makes the recursion
structural; the fuel bound `n + 1` always suffices). -/
def bitLenAux : Nat → Nat → Nat
  | 0, _ => 0
  | fuel + 1, n => if n = 0 then 0 else bitLenAux fuel (n / 2) + 1

/-- Number of binary digits of `n` (`0` for `0`). -/
def bitLen (n : Nat) : Nat := bitLenAux (n + 1) n

/-- Round a natural number to the nearest value with at most 53
significant bits (binary64 significand precision), ties to even — the
identity below `2 ^ 53`. -/
def fpRoundNat (a : Nat) : Nat :=
  if a < 2 ^ 53 then a
  else
    let u := 2 ^ (bitLen a - 53)
    let q := a / u
    let r := a % u
    if 2 * r < u then q * u
    else if u < 2 * r then (q + 1) * u
    else (if q % 2 = 0 then q else q + 1) * u

/-- Round an integer to the nearest binary64-representable value
(IEEE-754 rounding is sign-symmetric). -/
def fpRound (n : Int) : Int :=
  if n < 0 then -(fpRoundNat n.natAbs : Int)
  else (fpRoundNat n.natAbs : Int)

/-- IEEE-754 binary64 addition on integer-valued doubles: the exact sum,
correctly rounded. -/
def fpAdd (a b : Int) : Int := fpRound (a + b)

/-- The accumulation step `map.set(k, map.get(k)! + v)` with the binary64
addition the program actually performs (cell values themselves are taken
to be representable doubles and are stored as-is on first occurrence,
as `map.set(k, v)` does). -/
def fpMapAdd : List (String × Int) → String → Int → List (String × Int)
  | [], key, v => [(key, v)]
  | (k, w) :: rest, key, v =>
    if k = key then (k, fpAdd w v) :: rest
    else (k, w) :: fpMapAdd rest key v

/-- `buildMap` with binary64 accumulation. -/
def fpBuildMap (l : List (String × Int)) : List (String × Int) :=
  l.foldl (fun m p => fpMapAdd m p.1 p.2) []

/-- The result unit every report feeds to `MonthlyReportTable` /
`MonthlyReportChart`: `{ monthKey, month, total, date }`. -/
structure Bucket where
  monthKey : String
  month : String
  total : Int
  date : DateTime
  deriving DecidableEq

/-- The chronological comparator `(a, b) => a.date.getTime() - b.date.getTime()`. -/
def byDateAsc (a b : Bucket) : Prop := a.date.stamp ≤ b.date.stamp

instance byDateAsc.dec : DecidableRel byDateAsc := fun _ _ => Nat.decLe _ _

instance : IsTotal Bucket byDateAsc := ⟨fun _ _ => Nat.le_total _ _⟩

instance : IsTrans Bucket byDateAsc := ⟨fun _ _ _ hab hbc => Nat.le_trans hab hbc⟩

/-- The descending comparator `(a, b) => b.total - a.total` of the
purchase-order report. -/
def byTotalDesc (a b : Bucket) : Prop := b.total ≤ a.total

instance byTotalDesc.dec : DecidableRel byTotalDesc := fun _ _ => Int.decLe _ _

instance : IsTotal Bucket byTotalDesc := ⟨fun a b => (Int.le_total a.total b.total).symm⟩

instance : IsTrans Bucket byTotalDesc := ⟨fun _ _ _ hab hbc => Int.le_trans hbc hab⟩

/-! ### Monthly report (`monthlyData`, src/unnamed/part_002 lines 117–176) -/

/-- Per-row step of `monthlyData`: resolve the date cell, form the
year-month key, and keep the value only when the value cell is numeric. -/
def rowMonthContrib (dateColumn valueColumn : String) (row : Row) :
    Option (String × Int) :=
  match resolveDate (rowVal row dateColumn) with
  | none => none
  | some date =>
    match rowVal row valueColumn with
    | .num v => some (monthKeyStr date, v)
    | _ => none

/-- The `monthlyMap` accumulated over all rows of the selected sheet
(exact-summation idealization of the accumulated doubles). -/
def monthlyMap (sheet : Worksheet) (dateColumn valueColumn : String) :
    List (String × Int) :=
  buildMap (sheet.data.filterMap (rowMonthContrib dateColumn valueColumn))

/-- The `monthlyMap` with the binary64 addition the program actually
performs. -/
def fpMonthlyMap (sheet : Worksheet) (dateColumn valueColumn : String) :
    List (String × Int) :=
  fpBuildMap (sheet.data.filterMap (rowMonthContrib dateColumn valueColumn))

/-- The `([monthKey, total]) => {...}` conversion: the key is split on `-`,
the label is rebuilt from the two raw pieces, and the bucket date is the
first of that month (`new Date(parseInt(year), parseInt(month) - 1, 1)`).
Generated keys always split into exactly two numeric pieces; the fallback
arm is unreachable for them. -/
def monthKeyToBucket (p : String × Int) : Bucket :=
  match splitOnChar '-' p.1.data with
  | ys :: ms :: _ =>
    { monthKey := p.1
      month := String.mk ms ++ "/" ++ String.mk ys
      total := p.2
      date := ⟨(parseNatChars ys).getD 0, (parseNatChars ms).getD 0, 1, 0⟩ }
  | _ => { monthKey := p.1, month := p.1, total := p.2, date := ⟨0, 1, 1, 0⟩ }

/-- `monthlyData`: map entries become buckets, sorted chronologically. -/
def monthlyData (sheet : Worksheet) (dateColumn valueColumn : String) :
    List Bucket :=
  List.insertionSort byDateAsc
    ((monthlyMap sheet dateColumn valueColumn).map monthKeyToBucket)

/-! ### Purchase-order report (`poData`, src/components/PurchaseOrdersReport.tsx
lines 173–232) -/

/-- `new Date(parseInt(year), parseInt(month) - 1, 1)`: first instant of the
selected month. -/
def poWindowStart (y m : Nat) : DateTime := ⟨y, m, 1, 0⟩

/-- `new Date(parseInt(year), parseInt(month), 0)`: midnight at the start of
the last day of the selected month. -/
def poWindowEnd (y m : Nat) : DateTime := ⟨y, m, daysInMonth y m, 0⟩

/-- Per-row step of `poData`: resolve the date cell, drop rows outside the
`[startDate, endDate]` instant window (`date < startDate || date > endDate`),
require a truthy order-identifier cell (`if (!poValue) return`), and keep the
value only when the value cell is numeric; the key is `String(poValue)`. -/
def rowPoContrib (poColumn dateColumn valueColumn : String)
    (startD endD : DateTime) (row : Row) : Option (String × Int) :=
  match resolveDate (rowVal row dateColumn) with
  | none => none
  | some date =>
    if date.stamp < startD.stamp || endD.stamp < date.stamp then none
    else
      let poValue := rowVal row poColumn
      if truthy poValue then
        match rowVal row valueColumn with
        | .num v => some (cellToString poValue, v)
        | _ => none
      else none

/-- The `poMap` accumulated over all rows, for an already-split selected
month (year, 1-based month); exact-summation idealization. -/
def poMapCore (sheet : Worksheet) (poColumn dateColumn valueColumn : String)
    (y m : Nat) : List (String × Int) :=
  buildMap (sheet.data.filterMap
    (rowPoContrib poColumn dateColumn valueColumn (poWindowStart y m)
      (poWindowEnd y m)))

/-- The `poMap` with the binary64 addition the program actually performs. -/
def fpPoMapCore (sheet : Worksheet) (poColumn dateColumn valueColumn : String)
    (y m : Nat) : List (String × Int) :=
  fpBuildMap (sheet.data.filterMap
    (rowPoContrib poColumn dateColumn valueColumn (poWindowStart y m)
      (poWindowEnd y m)))

/-- Parses a `YYYY-MM` month key, as `selectedMonth.split('-')` followed by
`parseInt` on both pieces. The picker only ever produces well-formed keys;
a malformed key yields `none` (and an empty report) in this model. -/
def parseMonthKey (s : String) : Option (Nat × Nat) :=
  match splitOnChar '-' s.data with
  | [ys, ms] =>
    match parseNatChars ys, parseNatChars ms with
    | some y, some m => some (y, m)
    | _, _ => none
  | _ => none

/-- Stand-in for the `new Date()` dummy stored on purchase-order buckets;
its value is never read by the purchase-order report. -/
def dummyDate : DateTime := ⟨0, 1, 1, 0⟩

/-- `poData`: map entries become buckets whose `monthKey` is the entry's
synthetic index (`String(index)`) and whose label is the order identifier,
sorted descending by total. -/
def poData (sheet : Worksheet) (poColumn dateColumn valueColumn : String)
    (selectedMonth : String) : List Bucket :=
  match parseMonthKey selectedMonth with
  | none => []
  | some (y, m) =>
    List.insertionSort byTotalDesc
      (((poMapCore sheet poColumn dateColumn valueColumn y m).enum).map
        (fun p =>
          { monthKey := Nat.repr p.1
            month := p.2.1
            total := p.2.2
            date := dummyDate }))

/-! ### Project report (`projectData`, src/unnamed/part_004 lines 190–282) -/

/-- One collected data point of the project report. -/
structure ProjPoint where
  date : DateTime
  value : Int
  month : String
  monthKey : String
  deriving DecidableEq

/-- Per-row step of `projectData`: the project cell must be a string equal
to the selected project, the date cell must resolve, the row is dropped when
a month is selected and the row's `MM/YYYY` differs from it, and the value
cell must be numeric. -/
def rowProjPoint (projectColumn dateColumn valueColumn : String)
    (selectedProject : String) (selectedMonth : Option String) (row : Row) :
    Option ProjPoint :=
  match rowVal row projectColumn with
  | .str s =>
    if s = selectedProject then
      match resolveDate (rowVal row dateColumn) with
      | some date =>
        if (match selectedMonth with
            | some m => !(monthLabelStr date = m)
            | none => false) then none
        else
          match rowVal row valueColumn with
          | .num v => some ⟨date, v, monthLabelStr date, monthKeyStr date⟩
          | _ => none
      | none => none
    else none
  | _ => none

/-- `projectData`: without a selected month the points are aggregated by
month exactly like the monthly report; with a selected month each point
becomes its own bucket (`total` is the single row's value), still keyed by
the row's calendar `monthKey`, sorted by date. -/
def projectData (sheet : Worksheet)
    (projectColumn dateColumn valueColumn : String)
    (selectedProject : String) (selectedMonth : Option String) : List Bucket :=
  let dataPoints := sheet.data.filterMap
    (rowProjPoint projectColumn dateColumn valueColumn selectedProject
      selectedMonth)
  match selectedMonth with
  | none =>
    List.insertionSort byDateAsc
      ((buildMap (dataPoints.map (fun p => (p.monthKey, p.value)))).map
        monthKeyToBucket)
  | some _ =>
    List.insertionSort byDateAsc
      (dataPoints.map (fun p =>
        { monthKey := p.monthKey
          month := p.month
          total := p.value
          date := p.date }))

/-! ### Purchase-order column classification
(`columns`, src/components/PurchaseOrdersReport.tsx lines 51–97) -/

/-- Whether `needle` is a prefix of the character list. -/
def isPrefixChars : List Char → List Char → Bool
  | [], _ => true
  | _ :: _, [] => false
  | a :: as, b :: bs => a = b && isPrefixChars as bs

/-- Whether `needle` occurs as a contiguous run of the character list. -/
def containsChars (needle : List Char) : List Char → Bool
  | [] => isPrefixChars needle []
  | c :: rest => isPrefixChars needle (c :: rest) || containsChars needle rest

/-- Models the case-insensitive test `/order|po|purchase/i.test(header)`. -/
def headerMatchesPo (h : String) : Bool :=
  let l := h.data.map Char.toLower
  containsChars "order".data l || containsChars "po".data l ||
    containsChars "purchase".data l

/-- The sampled leading rows: `min(5, sheet.data.length)` rows. -/
def sampleRows (sheet : Worksheet) : List Row := sheet.data.take 5

/-- `sheet.data[0]`, as read by the first-row eligibility checks (the
source only reads it on sheets it has already checked to be nonempty). -/
def sheetFirstRow (sheet : Worksheet) : Row := sheet.data.headD []

/-- The `hasPo` flag of the sampling loop: some sampled cell is a string or
a number while the header matches the order/po/purchase pattern. -/
def colHasPo (sheet : Worksheet) (header : String) : Bool :=
  (sampleRows sheet).any (fun row =>
    match rowVal row header with
    | .str _ => headerMatchesPo header
    | .num _ => headerMatchesPo header
    | _ => false)

/-- The `hasDate` flag of the sampling loop: some sampled cell is a `Date`
or a string that date-parses. -/
def colHasDate (sheet : Worksheet) (header : String) : Bool :=
  (sampleRows sheet).any (fun row =>
    match rowVal row header with
    | .date _ => true
    | .str s => (dateParse s).isSome
    | _ => false)

/-- The `hasNumber` flag of the sampling loop: some sampled cell is numeric. -/
def colHasNumber (sheet : Worksheet) (header : String) : Bool :=
  (sampleRows sheet).any (fun row =>
    match rowVal row header with
    | .num _ => true
    | _ => false)

/-- The purchase-order column candidates: `hasPo`, or a string first-row
cell under a matching header. -/
def poColumnsOf (sheet : Worksheet) : List String :=
  sheet.headers.filter (fun h =>
    colHasPo sheet h ||
      ((match rowVal (sheetFirstRow sheet) h with
        | .str _ => true
        | _ => false) && headerMatchesPo h))

/-- The value column candidates of the purchase-order report:
`hasNumber && !hasPo` — numeric columns that are not order-identifier
columns. -/
def poValueColumnsOf (sheet : Worksheet) : List String :=
  sheet.headers.filter (fun h => colHasNumber sheet h && !colHasPo sheet h)

/-- The date column candidates of the purchase-order report. -/
def poDateColumnsOf (sheet : Worksheet) : List String :=
  sheet.headers.filter (fun h => colHasDate sheet h)

/-! ### Worksheet eligibility (the `eligibleSheets` filters of the three
reports: src/unnamed/part_002 lines 27–45, src/unnamed/part_004 lines
25–48, src/components/PurchaseOrdersReport.tsx lines 25–48) -/

/-- First-row evidence for the monthly report's date role: the cell is a
string (any string — no parse validation here) or a `Date`. -/
def firstRowStrOrDate (sheet : Worksheet) (h : String) : Bool :=
  match rowVal (sheetFirstRow sheet) h with
  | .str _ => true
  | .date _ => true
  | _ => false

/-- First-row evidence for the value role: the cell is numeric. -/
def firstRowNum (sheet : Worksheet) (h : String) : Bool :=
  match rowVal (sheetFirstRow sheet) h with
  | .num _ => true
  | _ => false

/-- First-row evidence for a text column: the cell is a string. -/
def firstRowStr (sheet : Worksheet) (h : String) : Bool :=
  match rowVal (sheetFirstRow sheet) h with
  | .str _ => true
  | _ => false

/-- First-row evidence for the purchase-order identifier role: the cell is
a string or a number. -/
def firstRowStrOrNum (sheet : Worksheet) (h : String) : Bool :=
  match rowVal (sheetFirstRow sheet) h with
  | .str _ => true
  | .num _ => true
  | _ => false

/-- Monthly-report eligibility: nonempty headers and data, some first-row
string-or-date column, and some first-row numeric column. -/
def monthlyEligible (sheet : Worksheet) : Bool :=
  !sheet.headers.isEmpty && !sheet.data.isEmpty &&
    sheet.headers.any (firstRowStrOrDate sheet) &&
    sheet.headers.any (firstRowNum sheet)

/-- The monthly report's `eligibleSheets` filter. -/
def monthlyEligibleSheets (excelData : List Worksheet) : List Worksheet :=
  excelData.filter monthlyEligible

/-- Project-report eligibility: additionally requires a first-row string
column for the project name. -/
def projectEligible (sheet : Worksheet) : Bool :=
  !sheet.headers.isEmpty && !sheet.data.isEmpty &&
    sheet.headers.any (firstRowStr sheet) &&
    sheet.headers.any (firstRowStrOrDate sheet) &&
    sheet.headers.any (firstRowNum sheet)

/-- The project report's `eligibleSheets` filter. -/
def projectEligibleSheets (excelData : List Worksheet) : List Worksheet :=
  excelData.filter projectEligible

/-- Purchase-order-report eligibility: a first-row string-or-number column,
a first-row string-or-date column, and a first-row numeric column. -/
def poEligible (sheet : Worksheet) : Bool :=
  !sheet.headers.isEmpty && !sheet.data.isEmpty &&
    sheet.headers.any (firstRowStrOrNum sheet) &&
    sheet.headers.any (firstRowStrOrDate sheet) &&
    sheet.headers.any (firstRowNum sheet)

/-- The purchase-order report's `eligibleSheets` filter. -/
def poEligibleSheets (excelData : List Worksheet) : List Worksheet :=
  excelData.filter poEligible

/-! ### Loaded dataset state (src/pages/Index.tsx) -/

/-- The `Index` page state: loaded worksheets, the active worksheet
selection, and the registered file names. -/
structure AppState where
  excelData : List Worksheet
  activeFile : Option String
  fileNames : List String
  deriving DecidableEq

/-- Outcome signal of `handleExcelData` (`toast.error` on a duplicate name,
`toast.success` otherwise). -/
inductive LoadOutcome where
  | duplicateRejected
  | loaded
  deriving DecidableEq

/-- `handleExcelData` (src/pages/Index.tsx lines 19–36): a file name that is
already registered is rejected with no state change; otherwise the
worksheets are appended, the file name is registered, and the active
selection defaults to the first new sheet's name when nothing was active
(`data[0]?.name || null`). -/
def handleExcelData (st : AppState) (data : List Worksheet)
    (fileName : String) : AppState × LoadOutcome :=
  if st.fileNames.contains fileName then (st, .duplicateRejected)
  else
    ({ excelData := st.excelData ++ data
       fileNames := st.fileNames ++ [fileName]
       activeFile :=
         if st.activeFile.isNone then
           match data.head? with
           | some w => if w.name = "" then none else some w.name
           | none => none
         else st.activeFile },
     .loaded)

/-- `getActiveWorksheet` (src/pages/Index.tsx lines 38–40):
`excelData.find(sheet => sheet.name === activeFile)` — the lookup compares
the sheet name alone against the active selection. -/
def getActiveWorksheet (excelData : List Worksheet)
    (activeFile : Option String) : Option Worksheet :=
  excelData.find? (fun sheet => activeFile == some sheet.name)

/-- The combined worksheet key `` `${sheet.fileName}-${sheet.name}` `` used
by the selection lists of all three report components. -/
def sheetKey (sheet : Worksheet) : String :=
  sheet.fileName ++ "-" ++ sheet.name

/-- The report components' worksheet lookup:
`excelData.find(s => `...key...` === selectedSheet)`. -/
def findSheetByKey (excelData : List Worksheet) (key : String) :
    Option Worksheet :=
  excelData.find? (fun s => sheetKey s == key)

/-! ### File upload (src/components/FileUploader.tsx lines 84–120) -/

/-- One file of an upload batch, with the outcome of the external decoder
already attached: `decodeOk` is whether `read`/`sheet_to_json` succeeded,
`decoded` the non-empty worksheets it produced. -/
structure UploadFile where
  name : String
  decodeOk : Bool
  decoded : List Worksheet
  deriving DecidableEq

/-- `processExcelFile`: `null` when the decode threw or produced no
non-empty worksheet, the worksheet list otherwise. -/
def processExcelFile (f : UploadFile) : Option (List Worksheet) :=
  if f.decodeOk then (if f.decoded.isEmpty then none else some f.decoded)
  else none

/-- Outcome signal of `handleFileChange`. -/
inductive UploadOutcome where
  | emptySelection
  | tooManyFiles
  | invalidFileType (name : String)
  | processed
  deriving DecidableEq

/-- Models `file.name.split('.').pop()?.toLowerCase()`. -/
def extOf (name : String) : String :=
  match (splitOnChar '.' name.data).reverse with
  | last :: _ => String.mk (last.map Char.toLower)
  | [] => ""

/-- The extension allow-list check of the upload handler. -/
def validExt (name : String) : Bool :=
  extOf name = "xlsx" || extOf name = "xls" || extOf name = "csv"

/-- `handleFileChange`: an empty selection returns immediately; a batch of
more than 2 files is rejected wholesale before any decode result is
consulted; the first disallowed extension aborts the whole batch; otherwise
the files are processed strictly sequentially, each successfully decoded
file being handed to `handleExcelData` (a per-file decode failure skips
just that file). The sequential success path threads state through the
calls, which idealizes the source: the React `setExcelData([...excelData,
...data])` closures are stale within one event batch, so a real two-file
upload registers both names but keeps only the later file's sheets. The
early-rejection branches, which are all the upload properties below rely
on, are unaffected by that difference. -/
def handleFileChange (st : AppState) (files : List UploadFile) :
    AppState × UploadOutcome :=
  if files.isEmpty then (st, .emptySelection)
  else if files.length > 2 then (st, .tooManyFiles)
  else
    match files.find? (fun f => !validExt f.name) with
    | some f => (st, .invalidFileType f.name)
    | none =>
      (files.foldl (fun s f =>
          match processExcelFile f with
          | some ws => (handleExcelData s ws f.name).1
          | none => s) st,
       .processed)

/-! ### Claim-side specifications

These definitions transcribe what the specification claims say, in order to
compare them with the code-side definitions above. -/

/-- Date-likeness as claim C4 words it: a timestamp, or a string that
parses to a valid date. -/
def claimDateLikeCell (c : CellVal) : Bool :=
  match c with
  | .date _ => true
  | .str s => (dateParse s).isSome
  | _ => false

/-- Monthly-report eligibility exactly as claim C4 states it: first-data-row
evidence only, one date-like column (in the claim's strict sense) and one
numeric column; a worksheet with zero data rows is never eligible. -/
def claimMonthlyEligible (sheet : Worksheet) : Prop :=
  sheet.data ≠ [] ∧
  (∃ h ∈ sheet.headers, claimDateLikeCell (rowVal (sheetFirstRow sheet) h) = true) ∧
  (∃ h ∈ sheet.headers, firstRowNum sheet h = true)

/-- The purchase-order row condition exactly as claim C2 states it: the
date cell yields a valid date falling inside the caller-selected month
(any instant of it — the entire last day included) and the
order-identifier cell has a non-empty value. -/
def claimPoRowOk (poColumn dateColumn : String) (y m : Nat) (row : Row) : Bool :=
  (match resolveDate (rowVal row dateColumn) with
   | some d => d.year == y && d.month == m
   | none => false) &&
  (match rowVal row poColumn with
   | .null => false
   | .str s => !(s == "")
   | _ => true)

/-- The purchase-order contribution rule per the amended claim C2: a row
contributes its numeric value, keyed by the string form of its
order-identifier cell, exactly when its date cell resolves to a valid date
lying in the instant window from the month's first instant to the last
day's first instant, the order-identifier cell is truthy, and the value
cell is numeric. -/
def amendedPoRowContrib (poColumn dateColumn valueColumn : String)
    (y m : Nat) (row : Row) : Option (String × Int) :=
  match resolveDate (rowVal row dateColumn), rowVal row poColumn,
      rowVal row valueColumn with
  | some d, po, .num v =>
    if (poWindowStart y m).stamp ≤ d.stamp ∧
        d.stamp ≤ (poWindowEnd y m).stamp ∧ truthy po = true then
      some (cellToString po, v)
    else none
  | _, _, _ => none

/-! ### Concrete instances used by the theorems below -/

/-- The worksheet of spec property 5: three rows dated 2024-01-15,
2024-01-20, 2024-02-01 with values 100, 50, 30. -/
def exMonthlySheet : Worksheet :=
  { name := "Sheet1", fileName := "data.xlsx", headers := ["Date", "Amount"],
    data := [
      [("Date", .str "2024-01-15"), ("Amount", .num 100)],
      [("Date", .str "2024-01-20"), ("Amount", .num 50)],
      [("Date", .str "2024-02-01"), ("Amount", .num 30)]] }

/-- The same rows in a different order (used for the permutation claim). -/
def exMonthlyDataPermuted : List Row :=
  [[("Date", .str "2024-02-01"), ("Amount", .num 30)],
   [("Date", .str "2024-01-20"), ("Amount", .num 50)],
   [("Date", .str "2024-01-15"), ("Amount", .num 100)]]

/-- Three January-2024 rows whose values 1e20, 1, −1e20 make binary64
accumulation order-sensitive: 1 is absorbed when added to 1e20 first. -/
def exFpSheet : Worksheet :=
  { name := "Sheet1", fileName := "data.xlsx", headers := ["Date", "Amount"],
    data := [
      [("Date", .str "2024-01-05"), ("Amount", .num (10 ^ 20))],
      [("Date", .str "2024-01-10"), ("Amount", .num 1)],
      [("Date", .str "2024-01-15"), ("Amount", .num (-(10 ^ 20)))]] }

/-- The same three rows with the 1-valued row moved last. -/
def exFpDataPermuted : List Row :=
  [[("Date", .str "2024-01-05"), ("Amount", .num (10 ^ 20))],
   [("Date", .str "2024-01-15"), ("Amount", .num (-(10 ^ 20)))],
   [("Date", .str "2024-01-10"), ("Amount", .num 1)]]

/-- The worksheet of spec property 6: purchase orders PO-1 (200) and
PO-2 (500), both in March 2024. -/
def exPoSheet : Worksheet :=
  { name := "Orders", fileName := "po.xlsx", headers := ["PO", "Date", "Amount"],
    data := [
      [("PO", .str "PO-1"), ("Date", .str "2024-03-05"), ("Amount", .num 200)],
      [("PO", .str "PO-2"), ("Date", .str "2024-03-10"), ("Amount", .num 500)]] }

/-- A row inside the selected month with a non-empty order identifier but a
non-numeric (string) value cell. -/
def exC2RowStringValue : Row :=
  [("PO", .str "PO-1"), ("Date", .str "2024-05-10"), ("Amount", .str "100")]

/-- A row whose date cell is a timestamp at noon of the last day of the
selected month, with a non-empty order identifier and a numeric value. -/
def exC2RowLastDayNoon : Row :=
  [("PO", .str "PO-2"), ("Date", .date ⟨2024, 5, 31, 720⟩), ("Amount", .num 7)]

/-- Worksheet holding exactly the two rows above. -/
def exC2Sheet : Worksheet :=
  { name := "Orders", fileName := "po.xlsx", headers := ["PO", "Date", "Amount"],
    data := [exC2RowStringValue, exC2RowLastDayNoon] }

/-- Project-report worksheet: two rows of project Alpha in May 2024 and one
row of project Beta. -/
def exProjSheet : Worksheet :=
  { name := "Projects", fileName := "proj.xlsx",
    headers := ["Project", "Date", "Amount"],
    data := [
      [("Project", .str "Alpha"), ("Date", .str "2024-05-10"), ("Amount", .num 100)],
      [("Project", .str "Alpha"), ("Date", .str "2024-05-20"), ("Amount", .num 40)],
      [("Project", .str "Beta"), ("Date", .str "2024-05-12"), ("Amount", .num 9)]] }

/-- The data point the project report collects for the first Alpha row. -/
def exProjPoint : ProjPoint :=
  { date := ⟨2024, 5, 10, 0⟩, value := 100, month := "05/2024",
    monthKey := "2024-05" }

/-- A worksheet whose only non-numeric first-row cell is an unparseable
string: eligible per the code, not date-like per claim C4's wording. -/
def exBadDateSheet : Worksheet :=
  { name := "S", fileName := "f.xlsx", headers := ["Name", "Qty"],
    data := [[("Name", .str "hello"), ("Qty", .num 5)]] }

/-- Sheet named `Sheet1` of a first loaded file. -/
def exSheetFile1 : Worksheet :=
  { name := "Sheet1", fileName := "first.xlsx", headers := ["A"], data := [] }

/-- Sheet with the same name belonging to a second loaded file. -/
def exSheetFile2 : Worksheet :=
  { name := "Sheet1", fileName := "second.xlsx", headers := ["B"], data := [] }

/-- Classification example: a numeric order-identifier column next to a
numeric amount column. -/
def exPoClassSheet : Worksheet :=
  { name := "Orders", fileName := "po.xlsx",
    headers := ["PO Number", "Amount"],
    data := [[("PO Number", .num 1001), ("Amount", .num 50)]] }

/-- An app state with one file already registered. -/
def exLoadedState : AppState :=
  { excelData := [exSheetFile1], activeFile := some "Sheet1",
    fileNames := ["first.xlsx"] }

/-- A three-file upload batch. -/
def exThreeFiles : List UploadFile :=
  [{ name := "a.xlsx", decodeOk := true, decoded := [exSheetFile1] },
   { name := "b.xlsx", decodeOk := true, decoded := [exSheetFile2] },
   { name := "c.xlsx", decodeOk := true, decoded := [] }]

/-! ### Shared accumulation lemmas -/


theorem sumKey_cons (p : String × Int) (ps : List (String × Int)) (k : String) :
    sumKey (p :: ps) k = if p.1 = k then p.2 + sumKey ps k else sumKey ps k := by
  by_cases h : p.1 = k <;> simp [sumKey, List.filter_cons, h]

theorem hasKey_cons (p : String × Int) (ps : List (String × Int)) (k : String) :
    hasKey (p :: ps) k = (decide (p.1 = k) || hasKey ps k) := by
  simp [hasKey]

theorem mapGet_mapAdd (m : List (String × Int)) (k : String) (v : Int)
    (k' : String) :
    mapGet (mapAdd m k v) k' =
      if k' = k then
        match mapGet m k with
        | some w => some (w + v)
        | none => some v
      else mapGet m k' := by
  induction m with
  | nil =>
    by_cases h : k' = k
    · subst h; simp [mapAdd, mapGet]
    · have h2 : ¬ k = k' := fun he => h he.symm
      simp [mapAdd, mapGet, h, h2]
  | cons p ps ih =>
    obtain ⟨a, b⟩ := p
    by_cases ha : a = k
    · subst ha
      by_cases hk : k' = a
      · subst hk; simp [mapAdd, mapGet]
      · have hk2 : ¬ a = k' := fun he => hk he.symm
        simp [mapAdd, mapGet, hk, hk2]
    · by_cases hk : k' = k
      · subst hk
        have ha2 : ¬ a = k' := ha
        simp [mapAdd, mapGet, ha, ha2, ih]
      · by_cases hak : a = k'
        · subst hak
          simp [mapAdd, mapGet, ha, hk, ih]
        · simp [mapAdd, mapGet, ha, hk, hak, ih]

theorem mapGet_foldl (l : List (String × Int)) :
    ∀ (m : List (String × Int)) (k : String),
      mapGet (l.foldl (fun acc p => mapAdd acc p.1 p.2) m) k =
        match mapGet m k with
        | some w => some (w + sumKey l k)
        | none => if hasKey l k then some (sumKey l k) else none := by
  induction l with
  | nil =>
    intro m k
    simp only [List.foldl_nil]
    cases mapGet m k <;> simp [sumKey, hasKey]
  | cons p ps ih =>
    intro m k
    simp only [List.foldl_cons]
    rw [ih, mapGet_mapAdd, sumKey_cons, hasKey_cons]
    by_cases hk : k = p.1
    · subst hk
      cases hm : mapGet m p.1 <;> simp [hm, Int.add_assoc]
    · have hk2 : ¬ p.1 = k := fun he => hk he.symm
      cases hm : mapGet m k <;> simp [hk, hk2, hm]

theorem mapGet_buildMap (l : List (String × Int)) (k : String) :
    mapGet (buildMap l) k =
      if hasKey l k then some (sumKey l k) else none := by
  have h := mapGet_foldl l [] k
  simpa [buildMap, mapGet] using h

theorem hasKey_of_perm {l1 l2 : List (String × Int)} (h : l1.Perm l2)
    (k : String) : hasKey l1 k = hasKey l2 k := by
  have hiff : (hasKey l1 k = true) ↔ (hasKey l2 k = true) := by
    simp only [hasKey, List.any_eq_true]
    constructor
    · rintro ⟨x, hx, hpx⟩; exact ⟨x, h.mem_iff.mp hx, hpx⟩
    · rintro ⟨x, hx, hpx⟩; exact ⟨x, h.mem_iff.mpr hx, hpx⟩
  cases ha : hasKey l1 k <;> cases hb : hasKey l2 k <;> simp_all

theorem sumKey_of_perm {l1 l2 : List (String × Int)} (h : l1.Perm l2)
    (k : String) : sumKey l1 k = sumKey l2 k :=
  List.Perm.sum_eq (List.Perm.map Prod.snd (List.Perm.filter _ h))

/-! ### Binary64 accumulation lemmas -/

theorem absSum_cons (p : String × Int) (ps : List (String × Int)) :
    absSum (p :: ps) = p.2.natAbs + absSum ps := by
  simp [absSum]

theorem absSum_of_perm {l1 l2 : List (String × Int)} (h : l1.Perm l2) :
    absSum l1 = absSum l2 :=
  List.Perm.sum_eq (h.map _)

theorem fpRound_exact (n : Int) (h : n.natAbs < 2 ^ 53) : fpRound n = n := by
  have hr : fpRoundNat n.natAbs = n.natAbs := by
    unfold fpRoundNat
    rw [if_pos h]
  unfold fpRound
  rw [hr]
  by_cases hn : n < 0
  · rw [if_pos hn]
    omega
  · rw [if_neg hn]
    omega

theorem fpAdd_exact (a b : Int) (h : a.natAbs + b.natAbs < 2 ^ 53) :
    fpAdd a b = a + b := by
  unfold fpAdd
  apply fpRound_exact
  have := Int.natAbs_add_le a b
  omega

theorem entry_natAbs_le_absSum {m : List (String × Int)} {a : String} {b : Int}
    (hmem : (a, b) ∈ m) : b.natAbs ≤ absSum m := by
  induction m with
  | nil => simp at hmem
  | cons p ps ih =>
    rw [absSum_cons]
    rcases List.mem_cons.mp hmem with h | h
    · rw [← h]
      omega
    · have := ih h
      omega

theorem absSum_mapAdd_le (m : List (String × Int)) (k : String) (v : Int) :
    absSum (mapAdd m k v) ≤ absSum m + v.natAbs := by
  induction m with
  | nil => simp [mapAdd, absSum]
  | cons p ps ih =>
    obtain ⟨a, b⟩ := p
    by_cases hk : a = k
    · simp only [mapAdd, if_pos hk, absSum_cons]
      have := Int.natAbs_add_le b v
      omega
    · simp only [mapAdd, if_neg hk, absSum_cons]
      omega

theorem fpMapAdd_eq_mapAdd_of_bounded (m : List (String × Int)) (k : String)
    (v : Int) (h : absSum m + v.natAbs < 2 ^ 53) :
    fpMapAdd m k v = mapAdd m k v := by
  induction m with
  | nil => rfl
  | cons p ps ih =>
    obtain ⟨a, b⟩ := p
    rw [absSum_cons] at h
    by_cases hk : a = k
    · simp only [fpMapAdd, mapAdd, if_pos hk]
      rw [fpAdd_exact b v (by omega)]
    · simp only [fpMapAdd, mapAdd, if_neg hk]
      rw [ih (by omega)]

theorem fpFoldl_eq_foldl_of_bounded (l : List (String × Int)) :
    ∀ m : List (String × Int), absSum m + absSum l < 2 ^ 53 →
      l.foldl (fun acc p => fpMapAdd acc p.1 p.2) m =
      l.foldl (fun acc p => mapAdd acc p.1 p.2) m := by
  induction l with
  | nil => intro m _; rfl
  | cons p ps ih =>
    intro m h
    rw [absSum_cons] at h
    simp only [List.foldl_cons]
    rw [fpMapAdd_eq_mapAdd_of_bounded m p.1 p.2 (by omega)]
    apply ih
    have := absSum_mapAdd_le m p.1 p.2
    omega

theorem fpBuildMap_eq_buildMap_of_bounded (l : List (String × Int))
    (h : absSum l < 2 ^ 53) : fpBuildMap l = buildMap l := by
  unfold fpBuildMap buildMap
  apply fpFoldl_eq_foldl_of_bounded
  have h0 : absSum ([] : List (String × Int)) = 0 := by simp [absSum]
  rw [h0]
  omega

theorem fpMapAdd_keys_eq {m1 m2 : List (String × Int)}
    (h : m1.map Prod.fst = m2.map Prod.fst) (k : String) (v w : Int) :
    (fpMapAdd m1 k v).map Prod.fst = (mapAdd m2 k w).map Prod.fst := by
  induction m1 generalizing m2 with
  | nil =>
    cases m2 with
    | nil => rfl
    | cons q qs => simp at h
  | cons p ps ih =>
    cases m2 with
    | nil => simp at h
    | cons q qs =>
      obtain ⟨a, b⟩ := p
      obtain ⟨c, d⟩ := q
      simp only [List.map_cons, List.cons.injEq] at h
      obtain ⟨hac, hks⟩ := h
      subst hac
      by_cases hk : a = k <;> simp [fpMapAdd, mapAdd, hk, ih hks, hks]

theorem fpBuildMap_keys (l : List (String × Int)) :
    (fpBuildMap l).map Prod.fst = (buildMap l).map Prod.fst := by
  suffices hgen : ∀ m1 m2 : List (String × Int),
      m1.map Prod.fst = m2.map Prod.fst →
      (l.foldl (fun acc p => fpMapAdd acc p.1 p.2) m1).map Prod.fst =
      (l.foldl (fun acc p => mapAdd acc p.1 p.2) m2).map Prod.fst by
    exact hgen [] [] rfl
  induction l with
  | nil => intro m1 m2 h; exact h
  | cons p ps ih =>
    intro m1 m2 h
    simp only [List.foldl_cons]
    exact ih _ _ (fpMapAdd_keys_eq h p.1 p.2 p.2)

theorem mapGet_isSome_eq_of_keys_eq {m1 m2 : List (String × Int)}
    (h : m1.map Prod.fst = m2.map Prod.fst) (k : String) :
    (mapGet m1 k).isSome = (mapGet m2 k).isSome := by
  induction m1 generalizing m2 with
  | nil =>
    cases m2 with
    | nil => rfl
    | cons q qs => simp at h
  | cons p ps ih =>
    cases m2 with
    | nil => simp at h
    | cons q qs =>
      obtain ⟨a, b⟩ := p
      obtain ⟨c, d⟩ := q
      simp only [List.map_cons, List.cons.injEq] at h
      obtain ⟨hac, hks⟩ := h
      subst hac
      by_cases hk : a = k <;> simp [mapGet, hk, ih hks]

theorem mapGet_fpBuildMap_isSome (l : List (String × Int)) (k : String) :
    (mapGet (fpBuildMap l) k).isSome = hasKey l k := by
  rw [mapGet_isSome_eq_of_keys_eq (fpBuildMap_keys l) k, mapGet_buildMap]
  cases h : hasKey l k <;> simp [h]


/-! ### Helper lemmas for the individual claims -/

/-- The purchase-order row step over a month window agrees with the
amended-claim formulation `amendedPoRowContrib`. -/
theorem rowPoContrib_eq_amended (pc dc vc : String) (y m : Nat) (row : Row) :
    rowPoContrib pc dc vc (poWindowStart y m) (poWindowEnd y m) row =
      amendedPoRowContrib pc dc vc y m row := by
  unfold rowPoContrib amendedPoRowContrib
  cases hd : resolveDate (rowVal row dc) with
  | none => rfl
  | some d =>
    by_cases h1 : d.stamp < (poWindowStart y m).stamp
    · have e1 : ¬ (poWindowStart y m).stamp ≤ d.stamp := Nat.not_le.mpr h1
      cases hv : rowVal row vc <;> simp [h1, e1]
    · by_cases h2 : (poWindowEnd y m).stamp < d.stamp
      · have e2 : ¬ d.stamp ≤ (poWindowEnd y m).stamp := Nat.not_le.mpr h2
        cases hv : rowVal row vc <;> simp [h1, h2, e2]
      · have e1 : (poWindowStart y m).stamp ≤ d.stamp := Nat.not_lt.mp h1
        have e2 : d.stamp ≤ (poWindowEnd y m).stamp := Nat.not_lt.mp h2
        by_cases h3 : truthy (rowVal row pc) = true
        · cases hv : rowVal row vc <;> simp [h1, h2, e1, e2, h3]
        · cases hv : rowVal row vc <;> simp [h1, h2, h3]

/-- First-row string-or-date evidence, in existential form. -/
theorem firstRowStrOrDate_eq_true_iff (sheet : Worksheet) (h : String) :
    firstRowStrOrDate sheet h = true ↔
      (∃ s, rowVal (sheetFirstRow sheet) h = .str s) ∨
      (∃ d, rowVal (sheetFirstRow sheet) h = .date d) := by
  unfold firstRowStrOrDate
  cases rowVal (sheetFirstRow sheet) h <;> simp

/-- First-row numeric evidence, in existential form. -/
theorem firstRowNum_eq_true_iff (sheet : Worksheet) (h : String) :
    firstRowNum sheet h = true ↔
      ∃ v, rowVal (sheetFirstRow sheet) h = .num v := by
  unfold firstRowNum
  cases rowVal (sheetFirstRow sheet) h <;> simp

/-- A string first-row cell under an order/po/purchase header forces the
sampled `hasPo` flag: the first row belongs to the 5-row sample. -/
theorem colHasPo_of_firstRow_str (sheet : Worksheet) (h : String)
    (hs : firstRowStr sheet h = true) (hm : headerMatchesPo h = true) :
    colHasPo sheet h = true := by
  cases hd : sheet.data with
  | nil =>
    unfold firstRowStr sheetFirstRow at hs
    rw [hd] at hs
    simp [rowVal] at hs
  | cons r rs =>
    unfold firstRowStr sheetFirstRow at hs
    rw [hd] at hs
    simp only [List.headD_cons] at hs
    unfold colHasPo sampleRows
    rw [hd]
    simp only [List.take_succ_cons, List.any_cons, Bool.or_eq_true]
    left
    cases hc : rowVal r h <;> rw [hc] at hs <;> simp_all

/-! ### Claim theorems -/

/-- C1: in the monthly report every row whose date cell parses and whose
value cell is numeric is summed into the bucket keyed
`{year}-{zero-padded month}`, with display label `{month}/{year}`, the
emitted buckets are sorted chronologically, and the three rows
(2024-01-15, 100), (2024-01-20, 50), (2024-02-01, 30) yield exactly the
two buckets ("2024-01", "01/2024", 150) then ("2024-02", "02/2024", 30)
in that order. -/
theorem monthly_aggregation_buckets :
    monthlyData exMonthlySheet "Date" "Amount" =
      [{ monthKey := "2024-01", month := "01/2024", total := 150,
         date := ⟨2024, 1, 1, 0⟩ },
       { monthKey := "2024-02", month := "02/2024", total := 30,
         date := ⟨2024, 2, 1, 0⟩ }] ∧
    (∀ (sheet : Worksheet) (dc vc : String),
      List.Sorted byDateAsc (monthlyData sheet dc vc)) ∧
    (∀ (sheet : Worksheet) (dc vc k : String),
      mapGet (monthlyMap sheet dc vc) k =
        if hasKey (sheet.data.filterMap (rowMonthContrib dc vc)) k then
          some (sumKey (sheet.data.filterMap (rowMonthContrib dc vc)) k)
        else none) := by
  refine ⟨by decide, ?_, ?_⟩
  · intro sheet dc vc
    exact List.sorted_insertionSort byDateAsc _
  · intro sheet dc vc k
    exact mapGet_buildMap _ _

/-- C2 counterexample: two rows that satisfy the claimed contribution
condition (valid date inside the selected month — one of them at noon of
the month's last day — and a non-empty order identifier) yet the
purchase-order report for that month is empty: the code additionally
requires a numeric value cell, and cuts the window at the last day's first
instant. -/
theorem po_filter_claim_counterexample :
    claimPoRowOk "PO" "Date" 2024 5 exC2RowStringValue = true ∧
    claimPoRowOk "PO" "Date" 2024 5 exC2RowLastDayNoon = true ∧
    poData exC2Sheet "PO" "Date" "Amount" "2024-05" = [] := by decide

/-- C2 amended: a row contributes to the purchase-order result (keyed by
the string form of its order-identifier cell) if and only if its date cell
yields a valid date in the instant window from the month's first instant
to the last day's first instant, its order-identifier cell is truthy, and
its value cell is numeric; the bucket totals are the sums of exactly those
contributions. -/
theorem po_row_filter_amended :
    (∀ (pc dc vc : String) (y m : Nat) (row : Row),
      rowPoContrib pc dc vc (poWindowStart y m) (poWindowEnd y m) row =
        amendedPoRowContrib pc dc vc y m row) ∧
    (∀ (sheet : Worksheet) (pc dc vc : String) (y m : Nat) (k : String),
      mapGet (poMapCore sheet pc dc vc y m) k =
        if hasKey (sheet.data.filterMap (amendedPoRowContrib pc dc vc y m)) k
        then some (sumKey (sheet.data.filterMap
            (amendedPoRowContrib pc dc vc y m)) k)
        else none) := by
  refine ⟨rowPoContrib_eq_amended, ?_⟩
  intro sheet pc dc vc y m k
  have hfun : rowPoContrib pc dc vc (poWindowStart y m) (poWindowEnd y m) =
      amendedPoRowContrib pc dc vc y m :=
    funext (rowPoContrib_eq_amended pc dc vc y m)
  unfold poMapCore
  rw [hfun, mapGet_buildMap]

/-- C3 counterexample: in the project report's month detail view the two
buckets produced for two matching rows both carry the calendar month key
"2024-05" — a duplicated calendar year-month key, not a per-row synthetic
index. -/
theorem project_detail_counterexample :
    (projectData exProjSheet "Project" "Date" "Amount" "Alpha"
        (some "05/2024")).map Bucket.monthKey = ["2024-05", "2024-05"] ∧
    ¬ ((projectData exProjSheet "Project" "Date" "Amount" "Alpha"
        (some "05/2024")).map Bucket.monthKey).Nodup ∧
    monthKeyStr ⟨2024, 5, 10, 0⟩ = "2024-05" := by
  refine ⟨by decide, by decide, by decide⟩

/-- C3 amended: with a month selected the project report emits one bucket
per matching row — the output is a permutation of the per-row buckets,
sorted by row date — each bucket's total is that single row's value with
no summation, and each bucket keeps the row's calendar `{year}-{month}`
key and `{month}/{year}` label (not a synthetic index). -/
theorem project_detail_one_bucket_per_row (sheet : Worksheet)
    (pc dc vc proj mo : String) :
    (projectData sheet pc dc vc proj (some mo)).Perm
      ((sheet.data.filterMap (rowProjPoint pc dc vc proj (some mo))).map
        (fun p => { monthKey := p.monthKey, month := p.month,
                    total := p.value, date := p.date })) ∧
    List.Sorted byDateAsc (projectData sheet pc dc vc proj (some mo)) ∧
    (∀ (row : Row) (p : ProjPoint),
      rowProjPoint pc dc vc proj (some mo) row = some p →
      p.monthKey = monthKeyStr p.date ∧ p.month = monthLabelStr p.date) := by
  refine ⟨?_, ?_, ?_⟩
  · unfold projectData
    exact List.perm_insertionSort byDateAsc _
  · unfold projectData
    exact List.sorted_insertionSort byDateAsc _
  · intro row p hp
    unfold rowProjPoint at hp
    split at hp <;> try exact Option.noConfusion hp
    split at hp <;> try exact Option.noConfusion hp
    split at hp <;> try exact Option.noConfusion hp
    split at hp <;> try exact Option.noConfusion hp
    split at hp <;> try exact Option.noConfusion hp
    cases hp
    exact ⟨rfl, rfl⟩

/-- C3 witness: the data point collected for the row (Alpha, 2024-05-10,
100) carries the calendar key and label of its date. -/
theorem project_detail_one_bucket_per_row_witness :
    exProjPoint.monthKey = monthKeyStr exProjPoint.date ∧
    exProjPoint.month = monthLabelStr exProjPoint.date :=
  (project_detail_one_bucket_per_row exProjSheet "Project" "Date" "Amount"
    "Alpha" "05/2024").2.2
    [("Project", .str "Alpha"), ("Date", .str "2024-05-10"),
     ("Amount", .num 100)]
    exProjPoint (by decide)

/-- C4 counterexample: a worksheet whose only non-numeric first-row cell is
the unparseable string "hello" is eligible for the monthly report in the
code, while the claimed rule (date-like = timestamp or string that parses
to a valid date) declares it ineligible. -/
theorem eligibility_claim_counterexample :
    exBadDateSheet ∈ monthlyEligibleSheets [exBadDateSheet] ∧
    ¬ claimMonthlyEligible exBadDateSheet := by
  constructor
  · decide
  · unfold claimMonthlyEligible
    decide

/-- C4 amended: monthly-report eligibility holds iff, on first-data-row
evidence only, some column's first-row cell is a string (any string — no
date-parse validation) or a timestamp and some column's first-row cell is
numeric, with nonempty headers and data; and a worksheet with zero data
rows is eligible for no report type. -/
theorem eligibility_first_row_only :
    (∀ (excelData : List Worksheet) (sheet : Worksheet),
      sheet ∈ monthlyEligibleSheets excelData ↔
        sheet ∈ excelData ∧ sheet.headers ≠ [] ∧ sheet.data ≠ [] ∧
        (∃ h ∈ sheet.headers,
          (∃ s, rowVal (sheetFirstRow sheet) h = .str s) ∨
          (∃ d, rowVal (sheetFirstRow sheet) h = .date d)) ∧
        (∃ h ∈ sheet.headers, ∃ v, rowVal (sheetFirstRow sheet) h = .num v)) ∧
    (∀ (excelData : List Worksheet) (sheet : Worksheet), sheet.data = [] →
      sheet ∉ monthlyEligibleSheets excelData ∧
      sheet ∉ projectEligibleSheets excelData ∧
      sheet ∉ poEligibleSheets excelData) := by
  constructor
  · intro ed sheet
    unfold monthlyEligibleSheets
    rw [List.mem_filter]
    unfold monthlyEligible
    constructor
    · rintro ⟨hmem, hb⟩
      simp only [Bool.and_eq_true, List.any_eq_true, Bool.not_eq_true',
        List.isEmpty_eq_false] at hb
      obtain ⟨⟨⟨hh, hd⟩, h1, hh1, hp1⟩, h2, hh2, hp2⟩ := hb
      exact ⟨hmem, hh, hd,
        ⟨h1, hh1, (firstRowStrOrDate_eq_true_iff sheet h1).mp hp1⟩,
        ⟨h2, hh2, (firstRowNum_eq_true_iff sheet h2).mp hp2⟩⟩
    · rintro ⟨hmem, hh, hd, ⟨h1, hh1, hp1⟩, ⟨h2, hh2, hp2⟩⟩
      refine ⟨hmem, ?_⟩
      simp only [Bool.and_eq_true, List.any_eq_true, Bool.not_eq_true',
        List.isEmpty_eq_false]
      exact ⟨⟨⟨hh, hd⟩,
        h1, hh1, (firstRowStrOrDate_eq_true_iff sheet h1).mpr hp1⟩,
        h2, hh2, (firstRowNum_eq_true_iff sheet h2).mpr hp2⟩
  · intro ed sheet hnil
    have hm : monthlyEligible sheet = false := by
      simp [monthlyEligible, hnil]
    have hpj : projectEligible sheet = false := by
      simp [projectEligible, hnil]
    have hq : poEligible sheet = false := by
      simp [poEligible, hnil]
    refine ⟨?_, ?_, ?_⟩ <;> intro hmem
    · have := (List.mem_filter.mp hmem).2
      rw [hm] at this
      exact Bool.false_ne_true this
    · have := (List.mem_filter.mp hmem).2
      rw [hpj] at this
      exact Bool.false_ne_true this
    · have := (List.mem_filter.mp hmem).2
      rw [hq] at this
      exact Bool.false_ne_true this

/-- C4 witness: a worksheet with zero data rows is not in the monthly
report's eligible list. -/
theorem eligibility_first_row_only_witness :
    exSheetFile1.data = [] ∧
    exSheetFile1 ∉ monthlyEligibleSheets [exSheetFile1] :=
  ⟨rfl, (eligibility_first_row_only.2 [exSheetFile1] exSheetFile1 rfl).1⟩

/-- C5: with two loaded files both containing a sheet named "Sheet1",
`getActiveWorksheet` — which compares the sheet name alone — always
returns either nothing or the first file's sheet, so the second file's
sheet is unreachable through it, while the report components' combined
`fileName-name` key lookup does retrieve it. -/
theorem active_worksheet_lookup_by_name_only :
    getActiveWorksheet [exSheetFile1, exSheetFile2] (some "Sheet1") =
      some exSheetFile1 ∧
    exSheetFile1.name = exSheetFile2.name ∧
    exSheetFile1.fileName = "first.xlsx" ∧
    exSheetFile2.fileName = "second.xlsx" ∧
    (∀ activeFile,
      getActiveWorksheet [exSheetFile1, exSheetFile2] activeFile = none ∨
      getActiveWorksheet [exSheetFile1, exSheetFile2] activeFile =
        some exSheetFile1) ∧
    findSheetByKey [exSheetFile1, exSheetFile2] (sheetKey exSheetFile2) =
      some exSheetFile2 := by
  refine ⟨by decide, by decide, by decide, by decide, ?_, by decide⟩
  intro af
  by_cases h : af = some "Sheet1"
  · subst h
    right
    decide
  · left
    have h1 : (af == some exSheetFile1.name) = false := by
      simp only [exSheetFile1, beq_eq_false_iff_ne, ne_eq]
      exact h
    have h2 : (af == some exSheetFile2.name) = false := by
      simp only [exSheetFile2, beq_eq_false_iff_ne, ne_eq]
      exact h
    unfold getActiveWorksheet
    simp only [List.find?, h1, h2]

/-- C6 counterexample: the three rows valued 1e20, 1, −1e20 all fall in
the January 2024 bucket; with the binary64 addition the program performs,
the original row order accumulates to 0 (the 1 is absorbed into 1e20
before it is cancelled) while the permuted order — a permutation of the
same rows — accumulates to 1: permuting row order does not yield
identical bucket totals. -/
theorem fp_total_reorder_counterexample :
    exFpDataPermuted.Perm exFpSheet.data ∧
    mapGet (fpMonthlyMap exFpSheet "Date" "Amount") "2024-01" = some 0 ∧
    mapGet (fpMonthlyMap { exFpSheet with data := exFpDataPermuted }
      "Date" "Amount") "2024-01" = some 1 := by decide

/-- C6 amended: permuting the rows of a worksheet always leaves the set of
bucket keys of the monthly and purchase-order aggregations unchanged —
also under the binary64 accumulation the program performs — and leaves
every bucket total unchanged under exact summation; moreover, whenever the
magnitudes of the monthly contributions sum below 2^53 the binary64
accumulation coincides with the exact one, so those totals are
reorder-invariant too. Binary64 totals are not reorder-invariant in
general (see the counterexample). -/
theorem aggregation_row_order_keys_invariant (sheet : Worksheet)
    (data' : List Row) (dc vc pc : String) (y m : Nat)
    (hp : data'.Perm sheet.data) :
    (∀ k, (mapGet (fpMonthlyMap { sheet with data := data' } dc vc) k).isSome =
          (mapGet (fpMonthlyMap sheet dc vc) k).isSome) ∧
    (∀ k, (mapGet (fpPoMapCore { sheet with data := data' } pc dc vc y m)
            k).isSome =
          (mapGet (fpPoMapCore sheet pc dc vc y m) k).isSome) ∧
    (∀ k, mapGet (monthlyMap { sheet with data := data' } dc vc) k =
          mapGet (monthlyMap sheet dc vc) k) ∧
    (∀ k, mapGet (poMapCore { sheet with data := data' } pc dc vc y m) k =
          mapGet (poMapCore sheet pc dc vc y m) k) ∧
    (absSum (sheet.data.filterMap (rowMonthContrib dc vc)) < 2 ^ 53 →
      fpMonthlyMap { sheet with data := data' } dc vc =
        monthlyMap { sheet with data := data' } dc vc ∧
      fpMonthlyMap sheet dc vc = monthlyMap sheet dc vc) := by
  have hpm := hp.filterMap (rowMonthContrib dc vc)
  have hpp := hp.filterMap
    (rowPoContrib pc dc vc (poWindowStart y m) (poWindowEnd y m))
  refine ⟨?_, ?_, ?_, ?_, ?_⟩
  · intro k
    unfold fpMonthlyMap
    rw [mapGet_fpBuildMap_isSome, mapGet_fpBuildMap_isSome,
      hasKey_of_perm hpm]
  · intro k
    unfold fpPoMapCore
    rw [mapGet_fpBuildMap_isSome, mapGet_fpBuildMap_isSome,
      hasKey_of_perm hpp]
  · intro k
    unfold monthlyMap
    rw [mapGet_buildMap, mapGet_buildMap, hasKey_of_perm hpm,
      sumKey_of_perm hpm]
  · intro k
    unfold poMapCore
    rw [mapGet_buildMap, mapGet_buildMap, hasKey_of_perm hpp,
      sumKey_of_perm hpp]
  · intro hb
    have hb' : absSum (data'.filterMap (rowMonthContrib dc vc)) < 2 ^ 53 := by
      rw [absSum_of_perm hpm]
      exact hb
    constructor
    · unfold fpMonthlyMap monthlyMap
      exact fpBuildMap_eq_buildMap_of_bounded _ hb'
    · unfold fpMonthlyMap monthlyMap
      exact fpBuildMap_eq_buildMap_of_bounded _ hb

/-- C6 witness: on the permuted three-row example the January-2024 bucket
is present either way, its exact total is unchanged, and — the magnitudes
summing to 180 < 2^53 — the binary64 accumulation equals the exact one. -/
theorem aggregation_row_order_keys_invariant_witness :
    (mapGet (fpMonthlyMap { exMonthlySheet with data := exMonthlyDataPermuted }
        "Date" "Amount") "2024-01").isSome =
      (mapGet (fpMonthlyMap exMonthlySheet "Date" "Amount") "2024-01").isSome ∧
    mapGet (monthlyMap { exMonthlySheet with data := exMonthlyDataPermuted }
        "Date" "Amount") "2024-01" =
      mapGet (monthlyMap exMonthlySheet "Date" "Amount") "2024-01" ∧
    fpMonthlyMap exMonthlySheet "Date" "Amount" =
      monthlyMap exMonthlySheet "Date" "Amount" :=
  ⟨(aggregation_row_order_keys_invariant exMonthlySheet exMonthlyDataPermuted
      "Date" "Amount" "PO" 2024 5 (by decide)).1 "2024-01",
   (aggregation_row_order_keys_invariant exMonthlySheet exMonthlyDataPermuted
      "Date" "Amount" "PO" 2024 5 (by decide)).2.2.1 "2024-01",
   ((aggregation_row_order_keys_invariant exMonthlySheet exMonthlyDataPermuted
      "Date" "Amount" "PO" 2024 5 (by decide)).2.2.2.2 (by decide)).2⟩

/-- C7: the purchase-order report output is sorted in descending order of
accumulated total, and the example with PO-1 (200) and PO-2 (500) inside
the selected month produces [PO-2 (500), PO-1 (200)]. -/
theorem po_descending_order :
    poData exPoSheet "PO" "Date" "Amount" "2024-03" =
      [{ monthKey := "1", month := "PO-2", total := 500, date := dummyDate },
       { monthKey := "0", month := "PO-1", total := 200, date := dummyDate }] ∧
    (∀ (sheet : Worksheet) (pc dc vc sm : String),
      List.Sorted byTotalDesc (poData sheet pc dc vc sm)) := by
  refine ⟨by decide, ?_⟩
  intro sheet pc dc vc sm
  unfold poData
  cases parseMonthKey sm with
  | none => simp
  | some ym =>
    obtain ⟨y, m⟩ := ym
    exact List.sorted_insertionSort byTotalDesc _

/-- C8: loading a file whose name is already registered leaves the state
completely unchanged and produces the duplicate-rejection signal. -/
theorem duplicate_file_load_rejected (st : AppState) (data : List Worksheet)
    (fileName : String) (h : st.fileNames.contains fileName = true) :
    handleExcelData st data fileName = (st, .duplicateRejected) := by
  have hmem : fileName ∈ st.fileNames := by simpa using h
  simp [handleExcelData, hmem]

/-- C8 witness: re-loading "first.xlsx" into a state that already holds it
is rejected without mutation. -/
theorem duplicate_file_load_rejected_witness :
    exLoadedState.fileNames.contains "first.xlsx" = true ∧
    handleExcelData exLoadedState [exSheetFile2] "first.xlsx" =
      (exLoadedState, .duplicateRejected) :=
  ⟨by decide, duplicate_file_load_rejected exLoadedState [exSheetFile2]
    "first.xlsx" (by decide)⟩

/-- C9: an upload batch of more than 2 files is rejected wholesale — the
state is unchanged whatever the files' decode results would have been. -/
theorem upload_batch_cap (st : AppState) (files : List UploadFile)
    (h : 2 < files.length) :
    handleFileChange st files = (st, .tooManyFiles) := by
  have hne : files.isEmpty = false := by
    cases files with
    | nil => simp at h
    | cons a l => rfl
  simp [handleFileChange, hne, h]

/-- C9 witness: a three-file batch is rejected with the state unchanged. -/
theorem upload_batch_cap_witness :
    2 < exThreeFiles.length ∧
    handleFileChange exLoadedState exThreeFiles =
      (exLoadedState, .tooManyFiles) :=
  ⟨by decide, upload_batch_cap exLoadedState exThreeFiles (by decide)⟩

/-- C10: every column classified as a purchase-order identifier column is
excluded from the purchase-order report's value-column candidates, even
when its sampled cells are numeric. -/
theorem po_column_excluded_from_value_columns (sheet : Worksheet) (h : String)
    (hpo : h ∈ poColumnsOf sheet) : h ∉ poValueColumnsOf sheet := by
  intro hval
  have h1 := (List.mem_filter.mp hpo).2
  have h2 := (List.mem_filter.mp hval).2
  simp only [Bool.or_eq_true, Bool.and_eq_true] at h1 h2
  have hpo' : colHasPo sheet h = true := by
    rcases h1 with h1 | ⟨hs, hm⟩
    · exact h1
    · exact colHasPo_of_firstRow_str sheet h hs hm
  rw [hpo'] at h2
  simp at h2

/-- C10 witness: the numeric "PO Number" column is offered as a
purchase-order column and not as a value column. -/
theorem po_column_excluded_from_value_columns_witness :
    "PO Number" ∈ poColumnsOf exPoClassSheet ∧
    "PO Number" ∉ poValueColumnsOf exPoClassSheet :=
  ⟨by decide,
   po_column_excluded_from_value_columns exPoClassSheet "PO Number" (by decide)⟩

end ECW
